import Mathlib

/-!
Verification of the nestor-matrix conversation-context engine.

Shallow embedding of the core logic of src/nestor_matrix/bot.py and
src/nestor_matrix/compat.py: the mention classifier, the relation
fetcher response decoding, the thread-history builder and the response
dispatcher.  Network, crypto and the reasoning agent are modelled as
oracles supplied through an environment record; Python exceptions are
modelled with Option/Except; side effects (logging, typing indicator,
message sends) are modelled as an explicit effect list.
-/

set_option autoImplicit false

deriving instance DecidableEq for Except

namespace NestorMatrix

/-! ## Python string primitives

The bot manipulates Python `str` values with `str.lower`,
`str.startswith`, `" " in body` and `str.split(maxsplit=1)`.  We model
strings as Lean `String`/`List Char`; case folding is ASCII (which
coincides with Python `str.lower` on the ASCII mention tokens and
identifiers the bot handles). -/

/-- ASCII case folding, matching Python `str.lower` on ASCII input. -/
def pyLowerChar (c : Char) : Char :=
  if 'A' ≤ c ∧ c ≤ 'Z' then Char.ofNat (c.toNat + 32) else c

/-- Characters Python `str.split()` (no separator) treats as whitespace,
restricted to ASCII. -/
def pyIsSpace (c : Char) : Bool :=
  c = ' ' || c = '\t' || c = '\n' || c = '\r' || c = '\x0b' || c = '\x0c'

/-- Lowercased character list of a string, as Python `body.lower()`. -/
def pyLower (s : String) : List Char := s.toList.map pyLowerChar

/-! ## Mention classifier (bot.py lines 40-47)

Python source:
  def _is_mentioned(body, user_id):
      return body.lower().startswith(("!nestor", "!n", user_id))
  def _extract_prompt(body):
      return body.split(maxsplit=1)[1] if " " in body else ""
-/

/-- Embedding of `_is_mentioned`: the lowercased body must start with one
of the literal tokens, or with `user_id` verbatim (note: `user_id` itself
is NOT lowercased by the Python code). -/
def is_mentioned (body user_id : String) : Bool :=
  let lb := pyLower body
  "!nestor".toList.isPrefixOf lb || "!n".toList.isPrefixOf lb
    || user_id.toList.isPrefixOf lb

/-- Second element of Python `body.split(maxsplit=1)`, if it exists:
drop leading whitespace, drop the first whitespace-delimited word, drop
the whitespace run after it; `none` models the IndexError raised by
`[1]` when the split list has fewer than two elements. -/
def splitMaxTail (body : String) : Option String :=
  let stripped := body.toList.dropWhile pyIsSpace
  let rest := (stripped.dropWhile (fun c => !pyIsSpace c)).dropWhile pyIsSpace
  if rest.isEmpty then none else some (String.mk rest)

/-- Embedding of `_extract_prompt`.  `none` models an uncaught Python
IndexError: when the body contains a space but nothing follows the first
word (for example a bare mention with a trailing space), the indexing
`[1]` raises. -/
def extract_prompt (body : String) : Option String :=
  if body.toList.contains ' ' then splitMaxTail body else some ""

/-! ## Data model -/

/-- Event kinds the core inspects (Python isinstance checks and
EventType comparisons). -/
inductive EventKind where
  | message
  | encrypted
  | member
  | reaction
  | otherKind
  deriving DecidableEq

/-- Relation kinds (mautrix RelationType values the core inspects). -/
inductive RelKind where
  | thread
  | reply
  | otherRel
  deriving DecidableEq

/-- A room event, as the core sees it: identifier, room, sender, kind,
textual body (meaningful for message events) and the optional
relates-to reference. -/
structure Event where
  event_id : String
  room_id : String
  sender : String
  kind : EventKind
  body : String
  rel_type : Option RelKind := none
  rel_event_id : Option String := none
  deriving DecidableEq

/-- Embedding of mautrix `content.get_thread_parent()`: the related
event id when the relation is a THREAD relation. -/
def Event.get_thread_parent (e : Event) : Option String :=
  if e.rel_type = some RelKind.thread then e.rel_event_id else none

/-- Embedding of Python `isinstance(decrypted, MessageEvent)`. -/
def isMessageEvent (e : Event) : Bool := e.kind = EventKind.message

/-- Conversation roles of the pydantic-ai message history: a
ModelRequest with a UserPromptPart is a user turn, a ModelResponse with
a TextPart is an assistant turn. -/
inductive Role where
  | user
  | assistant
  deriving DecidableEq

/-- One turn of the history handed to the reasoning agent. -/
structure Turn where
  role : Role
  content : String
  deriving DecidableEq

/-! ## Effects and errors -/

/-- Log levels the core uses. -/
inductive Level where
  | debug
  | warning
  | errorLevel
  deriving DecidableEq

/-- Observable side effects of the handler: log entries, typing
indicator updates, and message sends (room, thread root, in-reply-to,
body). -/
inductive Effect where
  | log (lvl : Level) (msg : String)
  | setTyping (room : String) (timeoutMs : Nat)
  | sendMessage (room : String) (threadRoot : String) (inReplyTo : String)
      (body : String)
  deriving DecidableEq

/-- Decryption failures of `crypto.decrypt_megolm_event`: mautrix
SessionNotFound (a subclass of DecryptionError) versus any other
DecryptionError. -/
inductive DecryptError where
  | sessionNotFound
  | decryptionFailed
  deriving DecidableEq

/-- MatrixResponseError variants raised by `get_event_relations`
(compat.py lines 70-73). -/
inductive MatrixError where
  | chunkMissing
  | invalidEvents
  deriving DecidableEq

/-! ## Relation fetcher (compat.py, get_event_relations) -/

/-- One element of the JSON chunk of the relations endpoint: either it
deserializes to an Event, or mautrix Event.deserialize raises
SerializerError on it. -/
inductive RawEvent where
  | valid (e : Event)
  | malformed
  deriving DecidableEq

/-- Embedding of Event.deserialize on one chunk element; the error is a
SerializerError. -/
def deserializeEvent : RawEvent → Except Unit Event
  | RawEvent.valid e => Except.ok e
  | RawEvent.malformed => Except.error ()

/-- Server JSON body of the relations endpoint response, with the three
fields the decoder reads; a missing chunk key models the KeyError
branch. -/
structure RelResponse where
  prev_batch : Option String := none
  next_batch : Option String := none
  chunk : Option (List RawEvent) := none
  deriving DecidableEq

/-- Decoded result of get_event_relations (mautrix PaginatedMessages);
the mautrix field named end is called end_tok here because end is a
Lean keyword. -/
structure PaginatedMessages where
  start : Option String
  end_tok : Option String
  events : List Event
  deriving DecidableEq

/-- Query parameters built by get_event_relations (compat.py 46-51).
Python writes str(limit) if limit else None, so a limit of 0 is falsy
and dropped exactly like None. -/
def relationsQueryParams (dir : String) (from_token to_token : Option String)
    (limit : Option Int) : List (String × Option String) :=
  [("dir", some dir),
   ("from", from_token),
   ("to", to_token),
   ("limit", match limit with
             | some l => if l = 0 then none else some (toString l)
             | none => none)]

/-- Deserialization of the whole chunk, as the Python list
comprehension does it: the first SerializerError aborts the whole list,
no partial result survives. -/
def deserializeChunk : List RawEvent → Except Unit (List Event)
  | [] => Except.ok []
  | r :: rs =>
    match deserializeEvent r with
    | Except.error e => Except.error e
    | Except.ok ev =>
      match deserializeChunk rs with
      | Except.error e => Except.error e
      | Except.ok evs => Except.ok (ev :: evs)

/-- Embedding of the response decoding of get_event_relations
(compat.py 64-73): a missing chunk key (KeyError) and a malformed chunk
element (SerializerError) both become MatrixResponseError; the whole
batch fails, with no partial decoding. -/
def get_event_relations_decode (content : RelResponse) :
    Except MatrixError PaginatedMessages :=
  match content.chunk with
  | none => Except.error MatrixError.chunkMissing
  | some raws =>
    match deserializeChunk raws with
    | Except.error _ => Except.error MatrixError.invalidEvents
    | Except.ok evs =>
      Except.ok { start := content.prev_batch
                  end_tok := content.next_batch
                  events := evs }

/-! ## Bot pipeline (bot.py)

The network, crypto and agent collaborators are oracles in an
environment record: fetchRoot models client.get_event (error is any
exception), decrypt models crypto.decrypt_megolm_event on an encrypted
event, relationsContent models the raw server response the relations
request returns, agent models agent.run on prompt and history. -/

/-- Oracles for the collaborators of the handler, plus the joined-member
list of the room that client.get_joined_members returns. -/
structure Env where
  joinedMembers : List String
  fetchRoot : String → String → Except Unit Event
  decrypt : Event → Except DecryptError Event
  relationsContent : String → String → Option Int → RelResponse
  agent : String → List Turn → Except Unit String

/-- Embedding of _is_direct_message (bot.py 126-128). -/
def is_direct_message (members : List String) : Bool := members.length = 2

/-- Embedding of _should_respond (bot.py 130-139). -/
def should_respond (user_id : String) (members : List String) (ev : Event) :
    Bool :=
  if ev.sender = user_id then false
  else if is_direct_message members then true
  else is_mentioned ev.body user_id

/-- Embedding of _decrypt_event_if_needed (bot.py 233-237). -/
def decrypt_event_if_needed (decrypt : Event → Except DecryptError Event)
    (e : Event) : Except DecryptError Event :=
  if e.kind = EventKind.encrypted then decrypt e else Except.ok e

/-- One iteration of the decryption loop of _get_thread_messages
(bot.py 218-229): the events kept and the log entries produced for a
single fetched event — decrypt if needed, keep message events, skip a
session-missing failure with a debug log and any other decryption
failure with a warning log. -/
def processThreadEvent (decrypt : Event → Except DecryptError Event)
    (e : Event) : List Event × List Effect :=
  match decrypt_event_if_needed decrypt e with
  | Except.ok d =>
    if isMessageEvent d then ([d], []) else ([], [])
  | Except.error DecryptError.sessionNotFound =>
    ([], [Effect.log Level.debug
      ("Skipping event " ++ e.event_id ++ ": missing decryption session")])
  | Except.error DecryptError.decryptionFailed =>
    ([], [Effect.log Level.warning ("Failed to decrypt event " ++ e.event_id)])

/-- Per-event loop of _get_thread_messages (bot.py 217-231) over the
whole fetched batch, in batch order. -/
def processThreadEvents (decrypt : Event → Except DecryptError Event) :
    List Event → List Event × List Effect
  | [] => ([], [])
  | e :: rest =>
    let hd := processThreadEvent decrypt e
    let tl := processThreadEvents decrypt rest
    (hd.1 ++ tl.1, hd.2 ++ tl.2)

/-- Embedding of _get_thread_messages (bot.py 205-231).  The relations
call goes through the compat decoder; a MatrixResponseError is not
caught here and propagates to the caller. -/
def get_thread_messages (env : Env) (room_id thread_root_id : String)
    (limit : Int) : Except MatrixError (List Event) × List Effect :=
  match get_event_relations_decode
      (env.relationsContent room_id thread_root_id (some limit)) with
  | Except.error e => (Except.error e, [])
  | Except.ok resp =>
    let p := processThreadEvents env.decrypt resp.events
    (Except.ok p.1, p.2)

/-- Exceptions that can propagate out of _build_thread_history: an
uncaught MatrixResponseError from the relations fetch, or an uncaught
IndexError from _extract_prompt during turn conversion. -/
inductive BuildError where
  | protocolError (e : MatrixError)
  | indexError
  deriving DecidableEq

/-- One iteration of the loop of _thread_events_to_history (bot.py
244-254): the turn one surviving event becomes.  The value none models
the IndexError that _extract_prompt raises (inside the expression
_extract_prompt(body) or body) on a mention body whose first word is
followed only by whitespace. -/
def thread_event_to_turn (user_id : String) (e : Event) : Option Turn :=
  if e.sender = user_id then
    some { role := Role.assistant, content := e.body }
  else if is_mentioned e.body user_id then
    match extract_prompt e.body with
    | none => none
    | some p =>
      some { role := Role.user, content := if p = "" then e.body else p }
  else some { role := Role.user, content := e.body }

/-- Embedding of _thread_events_to_history (bot.py 239-256), one turn
per event in order; none models an IndexError propagating out of the
loop. -/
def thread_events_to_history (user_id : String) :
    List Event → Option (List Turn)
  | [] => some []
  | e :: rest =>
    match thread_event_to_turn user_id e,
        thread_events_to_history user_id rest with
    | some t, some ts => some (t :: ts)
    | _, _ => none

/-- Root fetch and decrypt step of _build_thread_history (bot.py
269-277): any exception there — fetch failure or any decryption error,
SessionNotFound included — is caught by the bare except and logged as a
warning. -/
def fetch_root_events (env : Env) (room_id thread_root_id : String) :
    List Event × List Effect :=
  match env.fetchRoot room_id thread_root_id with
  | Except.error _ =>
    ([], [Effect.log Level.warning
      ("Failed to fetch thread root " ++ thread_root_id)])
  | Except.ok root =>
    match decrypt_event_if_needed env.decrypt root with
    | Except.error _ =>
      ([], [Effect.log Level.warning
        ("Failed to fetch thread root " ++ thread_root_id)])
    | Except.ok d =>
      if isMessageEvent d then ([d], []) else ([], [])

/-- Embedding of _build_thread_history (bot.py 258-285): empty history
when the event has no thread parent (Python falsiness covers None and
the empty string), then root fetch (non-fatal), relations fetch
(uncaught on error), trigger-event filtering and turn conversion. -/
def build_thread_history (env : Env) (user_id : String) (ev : Event)
    (limit : Int) : Except BuildError (List Turn) × List Effect :=
  match ev.get_thread_parent with
  | none => (Except.ok [], [])
  | some thread_root_id =>
    if thread_root_id = "" then (Except.ok [], [])
    else
      let root := fetch_root_events env ev.room_id thread_root_id
      match get_thread_messages env ev.room_id thread_root_id limit with
      | (Except.error e, logs) =>
        (Except.error (BuildError.protocolError e), root.2 ++ logs)
      | (Except.ok replies, logs) =>
        let thread_events :=
          root.1 ++ replies.filter (fun r => r.event_id != ev.event_id)
        match thread_events_to_history user_id thread_events with
        | none => (Except.error BuildError.indexError, root.2 ++ logs)
        | some turns => (Except.ok turns, root.2 ++ logs)

/-- Fallback apology text (bot.py line 175). -/
def fallback_reply : String := "Sorry, I encountered an error processing your request."

/-- Static help reply for an empty prompt (bot.py line 169). -/
def help_reply : String := "Hi! Mention me with a message."

/-- Thread root the reply is attached to (bot.py line 196): Python
event.content.relates_to.event_id or event.event_id, with falsiness on
None and the empty string. -/
def reply_target (ev : Event) : String :=
  match ev.rel_event_id with
  | some s => if s = "" then ev.event_id else s
  | none => ev.event_id

/-- Embedding of _reply_in_thread (bot.py 187-203) as a send effect;
Markdown rendering belongs to an external collaborator and is not
modelled. -/
def reply_in_thread (ev : Event) (text : String) : Effect :=
  Effect.sendMessage ev.room_id (reply_target ev) ev.event_id text

/-- Result of one _handle_message invocation: the effects it performed
in order, and whether it ended by raising an uncaught exception. -/
structure HandlerOutcome where
  effects : List Effect
  raised : Bool
  deriving DecidableEq

/-- Embedding of _handle_message (bot.py 151-185).  The thread-history
limit is the default 10; passing the empty history as None to the agent
(message_history or None) does not change what the agent oracle sees
here. -/
def handle_message (env : Env) (user_id : String) (ev : Event) :
    HandlerOutcome :=
  let dbg := Effect.log Level.debug
    ("Message from " ++ ev.sender ++ " in " ++ ev.room_id)
  if !should_respond user_id env.joinedMembers ev then
    { effects := [dbg], raised := false }
  else
    match (if is_mentioned ev.body user_id then extract_prompt ev.body
           else some ev.body) with
    | none => { effects := [dbg], raised := true }
    | some prompt =>
      if prompt = "" then
        { effects := [dbg, reply_in_thread ev help_reply], raised := false }
      else
        match build_thread_history env user_id ev 10 with
        | (Except.error _, logs) => { effects := dbg :: logs, raised := true }
        | (Except.ok history, logs) =>
          let typingOn := Effect.setTyping ev.room_id 30000
          let typingOff := Effect.setTyping ev.room_id 0
          match env.agent prompt history with
          | Except.ok out =>
            { effects := dbg :: logs
                ++ [typingOn, typingOff, reply_in_thread ev out],
              raised := false }
          | Except.error _ =>
            { effects := dbg :: logs
                ++ [typingOn,
                    Effect.log Level.errorLevel "Failed to get AI response",
                    typingOff, reply_in_thread ev fallback_reply],
              raised := false }

/-- Predicate picking out message sends among effects. -/
def isReplyEffect : Effect → Bool
  | Effect.sendMessage _ _ _ _ => true
  | _ => false

/-- Predicate picking out typing-indicator clears (timeout 0). -/
def isTypingClear : Effect → Bool
  | Effect.setTyping _ 0 => true
  | _ => false

/-! ## Spec-side definitions

These follow the wording of the specification (not the source); they
are compared against the source embeddings in the claim theorems. -/

/-- Spec-side predicate: the body starts with the token
case-insensitively, both sides case-folded.  The claims state mention
detection with this predicate. -/
def ciStartsWith (body tok : String) : Bool :=
  (pyLower tok).isPrefixOf (pyLower body)

/-- Body a surviving thread event contributes to its turn, as the
source computes it: unchanged for the bot, and for others the result of
_extract_prompt when the body carries a mention and the extraction is
non-empty, the unchanged body otherwise.  (The none case is unreachable
when the conversion succeeds.) -/
def stored_body (user_id : String) (e : Event) : String :=
  if e.sender = user_id then e.body
  else if is_mentioned e.body user_id then
    match extract_prompt e.body with
    | some p => if p = "" then e.body else p
    | none => e.body
  else e.body

/-- Text of the reply the finally block sends: the agent output on
success, the fixed apology when agent.run raised (bot.py 175-185). -/
def agent_reply_text (r : Except Unit String) : String :=
  match r with
  | Except.ok out => out
  | Except.error _ => fallback_reply

/-! ## Concrete fixtures for examples, counterexamples and witnesses -/

/-- Bot identity used in concrete scenarios. -/
def botId : String := "@nestor:example.org"

/-- Three joined members: a group room, not a direct room. -/
def groupMembers : List String :=
  ["@nestor:example.org", "@alice:example.org", "@bob:example.org"]

/-- Plaintext thread-root message. -/
def rootMsg : Event :=
  { event_id := "$root", room_id := "!room", sender := "@alice:example.org",
    kind := EventKind.message, body := "thread start" }

/-- Triggering message: a mention with a prompt, inside the thread. -/
def trigger : Event :=
  { event_id := "$trig", room_id := "!room", sender := "@alice:example.org",
    kind := EventKind.message, body := "!nestor hello",
    rel_type := some RelKind.thread, rel_event_id := some "$root" }

/-- Newer thread reply: first in a backward-paginated batch. -/
def replyNewer : Event :=
  { event_id := "$e2", room_id := "!room", sender := "@bob:example.org",
    kind := EventKind.message, body := "newer reply" }

/-- Older thread reply: second in a backward-paginated batch. -/
def replyOlder : Event :=
  { event_id := "$e1", room_id := "!room", sender := "@bob:example.org",
    kind := EventKind.message, body := "older reply" }

/-- Encrypted thread-root event, before decryption. -/
def encRoot : Event :=
  { event_id := "$root", room_id := "!room", sender := "@alice:example.org",
    kind := EventKind.encrypted, body := "" }

/-- A message sent by the bot itself. -/
def selfEvent : Event :=
  { event_id := "$self", room_id := "!room", sender := "@nestor:example.org",
    kind := EventKind.message, body := "!nestor hi" }

/-- Bare mention with a trailing space: the body contains a space but
nothing follows the first word. -/
def evTrailing : Event :=
  { event_id := "$tr", room_id := "!room", sender := "@alice:example.org",
    kind := EventKind.message, body := "!nestor " }

/-- Message addressing a bot whose identifier contains an upper-case
letter, with matching case. -/
def evUpperId : Event :=
  { event_id := "$up", room_id := "!room", sender := "@carol:example.org",
    kind := EventKind.message, body := "@A:x hi" }

/-- Bare mention with no following text at all. -/
def bareMention : Event :=
  { event_id := "$bm", room_id := "!room", sender := "@alice:example.org",
    kind := EventKind.message, body := "!n" }

/-- Assistant message inside a thread. -/
def botReply : Event :=
  { event_id := "$bot1", room_id := "!room", sender := "@nestor:example.org",
    kind := EventKind.message, body := "earlier answer" }

/-- Happy-path environment: group room, plaintext root, empty relation
batch, succeeding agent. -/
def baseEnv : Env :=
  { joinedMembers := groupMembers,
    fetchRoot := fun _ _ => Except.ok rootMsg,
    decrypt := fun _ => Except.error DecryptError.decryptionFailed,
    relationsContent := fun _ _ _ => { chunk := some [] },
    agent := fun _ _ => Except.ok "the answer" }

/-- Environment whose relations endpoint answers without a chunk field:
the decode raises MatrixResponseError. -/
def envNoChunk : Env :=
  { baseEnv with relationsContent := fun _ _ _ => { chunk := none } }

/-- Environment returning a two-element backward (newest-first) batch. -/
def envTwoReplies : Env :=
  { baseEnv with relationsContent := fun _ _ _ =>
      { chunk := some [RawEvent.valid replyNewer, RawEvent.valid replyOlder] } }

/-- Environment whose thread root is encrypted and whose decryption
session is missing. -/
def envRootSessionMissing : Env :=
  { baseEnv with
    fetchRoot := fun _ _ => Except.ok encRoot,
    decrypt := fun _ => Except.error DecryptError.sessionNotFound }

/-- Environment whose reasoning agent raises. -/
def envAgentFails : Env :=
  { baseEnv with agent := fun _ _ => Except.error () }

/-! ## Sanity examples -/

example : extract_prompt "!nestor hello" = some "hello" := by decide

example : extract_prompt "!nestor " = none := by decide

example : extract_prompt "!n" = some "" := by decide

example : is_mentioned "!Nestor hi" "@bot:x" = true := by decide

example : is_mentioned "@A:x hi" "@A:x" = false := by decide

example : should_respond botId groupMembers trigger = true := by decide

example :
    (build_thread_history baseEnv botId trigger 10).1 =
      Except.ok [{ role := Role.user, content := "thread start" }] := by decide

/-! ## Helper lemmas -/

/-- Every event kept by one loop iteration is a message event obtained
from a successful decrypt of the fetched event. -/
theorem processThreadEvent_kept (decrypt : Event → Except DecryptError Event)
    (e d : Event) (hd : d ∈ (processThreadEvent decrypt e).1) :
    isMessageEvent d = true ∧ decrypt_event_if_needed decrypt e = Except.ok d := by
  unfold processThreadEvent at hd
  cases hdec : decrypt_event_if_needed decrypt e with
  | ok d2 =>
    rw [hdec] at hd
    cases hm : isMessageEvent d2 with
    | false => simp [hm] at hd
    | true =>
      simp [hm] at hd
      subst hd
      exact ⟨hm, rfl⟩
  | error err =>
    rw [hdec] at hd
    cases err <;> simp at hd

/-- Every effect of one loop iteration is a log entry. -/
theorem processThreadEvent_logs (decrypt : Event → Except DecryptError Event)
    (e : Event) :
    ∀ ef ∈ (processThreadEvent decrypt e).2, ∃ lvl msg, ef = Effect.log lvl msg := by
  intro ef hef
  unfold processThreadEvent at hef
  cases hdec : decrypt_event_if_needed decrypt e with
  | ok d =>
    rw [hdec] at hef
    cases hm : isMessageEvent d <;> simp [hm] at hef
  | error err =>
    rw [hdec] at hef
    cases err <;> simp at hef <;> exact ⟨_, _, hef⟩

/-- Every event surviving the loop is a message event obtained from a
successful decrypt of some event of the batch. -/
theorem processThreadEvents_sources (decrypt : Event → Except DecryptError Event)
    (evs : List Event) :
    ∀ d ∈ (processThreadEvents decrypt evs).1,
      isMessageEvent d = true ∧
        ∃ e ∈ evs, decrypt_event_if_needed decrypt e = Except.ok d := by
  induction evs with
  | nil => intro d hd; simp [processThreadEvents] at hd
  | cons e rest ih =>
    intro d hd
    simp only [processThreadEvents, List.mem_append] at hd
    cases hd with
    | inl h =>
      obtain ⟨hm, hdec⟩ := processThreadEvent_kept decrypt e d h
      exact ⟨hm, e, List.mem_cons_self e rest, hdec⟩
    | inr h =>
      obtain ⟨hm, e2, he2, hdec⟩ := ih d h
      exact ⟨hm, e2, List.mem_cons_of_mem e he2, hdec⟩

/-- Every effect of the loop is a log entry. -/
theorem processThreadEvents_logs (decrypt : Event → Except DecryptError Event)
    (evs : List Event) :
    ∀ ef ∈ (processThreadEvents decrypt evs).2,
      ∃ lvl msg, ef = Effect.log lvl msg := by
  induction evs with
  | nil => intro ef hef; simp [processThreadEvents] at hef
  | cons e rest ih =>
    intro ef hef
    simp only [processThreadEvents, List.mem_append] at hef
    cases hef with
    | inl h => exact processThreadEvent_logs decrypt e ef h
    | inr h => exact ih ef h

/-- The log entries of one iteration for a member of the batch are
among the log entries of the whole loop. -/
theorem processThreadEvents_log_mem (decrypt : Event → Except DecryptError Event)
    (evs : List Event) (e : Event) (he : e ∈ evs) :
    ∀ ef ∈ (processThreadEvent decrypt e).2,
      ef ∈ (processThreadEvents decrypt evs).2 := by
  induction evs with
  | nil => cases he
  | cons a rest ih =>
    intro ef hef
    simp only [processThreadEvents, List.mem_append]
    rcases List.mem_cons.mp he with h | h
    · subst h; exact Or.inl hef
    · exact Or.inr (ih h ef hef)

/-- On a batch of plaintext message events the loop keeps everything,
in order, and logs nothing. -/
theorem processThreadEvents_plain (decrypt : Event → Except DecryptError Event)
    (evs : List Event) (h : ∀ e ∈ evs, e.kind = EventKind.message) :
    processThreadEvents decrypt evs = (evs, []) := by
  induction evs with
  | nil => rfl
  | cons e rest ih =>
    have he : e.kind = EventKind.message := h e (List.mem_cons_self e rest)
    have hrest : ∀ x ∈ rest, x.kind = EventKind.message :=
      fun x hx => h x (List.mem_cons_of_mem e hx)
    have hstep : processThreadEvent decrypt e = ([e], []) := by
      simp [processThreadEvent, decrypt_event_if_needed, isMessageEvent, he]
    simp [processThreadEvents, hstep, ih hrest]

/-- Every event the root step keeps is a message event obtained from a
successful decrypt of the fetched root. -/
theorem fetch_root_events_sources (env : Env) (room_id thread_root_id : String) :
    ∀ d ∈ (fetch_root_events env room_id thread_root_id).1,
      isMessageEvent d = true ∧
        ∃ root, env.fetchRoot room_id thread_root_id = Except.ok root ∧
          decrypt_event_if_needed env.decrypt root = Except.ok d := by
  intro d hd
  unfold fetch_root_events at hd
  split at hd
  · simp at hd
  · rename_i root heq
    split at hd
    · simp at hd
    · rename_i d2 heq2
      split at hd
      · rename_i hm
        simp at hd
        subst hd
        exact ⟨hm, root, heq, heq2⟩
      · simp at hd

/-- Every effect of the root step is a log entry. -/
theorem fetch_root_events_logs (env : Env) (room_id thread_root_id : String) :
    ∀ ef ∈ (fetch_root_events env room_id thread_root_id).2,
      ∃ lvl msg, ef = Effect.log lvl msg := by
  intro ef hef
  unfold fetch_root_events at hef
  split at hef
  · simp at hef
    exact ⟨_, _, hef⟩
  · split at hef
    · simp at hef
      exact ⟨_, _, hef⟩
    · split at hef
      · simp at hef
      · simp at hef

/-- Every effect of the reply-fetch step is a log entry. -/
theorem get_thread_messages_logs (env : Env) (room_id thread_root_id : String)
    (limit : Int) :
    ∀ ef ∈ (get_thread_messages env room_id thread_root_id limit).2,
      ∃ lvl msg, ef = Effect.log lvl msg := by
  intro ef hef
  unfold get_thread_messages at hef
  cases hdec : get_event_relations_decode
      (env.relationsContent room_id thread_root_id (some limit)) with
  | error err => rw [hdec] at hef; simp at hef
  | ok resp =>
    rw [hdec] at hef
    simp at hef
    exact processThreadEvents_logs env.decrypt resp.events ef hef

/-- Every event the reply-fetch step returns is a message event
obtained from a successful decrypt of some event of the decoded
batch. -/
theorem get_thread_messages_sources (env : Env) (room_id thread_root_id : String)
    (limit : Int) (replies : List Event)
    (h : (get_thread_messages env room_id thread_root_id limit).1
      = Except.ok replies) :
    ∀ d ∈ replies,
      isMessageEvent d = true ∧
        ∃ e, decrypt_event_if_needed env.decrypt e = Except.ok d := by
  intro d hd
  unfold get_thread_messages at h
  cases hdec : get_event_relations_decode
      (env.relationsContent room_id thread_root_id (some limit)) with
  | error err => rw [hdec] at h; simp at h
  | ok resp =>
    rw [hdec] at h
    simp at h
    subst h
    obtain ⟨hm, e, _, he⟩ := processThreadEvents_sources env.decrypt resp.events d hd
    exact ⟨hm, e, he⟩

/-- Every effect of history building is a log entry. -/
theorem build_thread_history_logs (env : Env) (user_id : String) (ev : Event)
    (limit : Int) :
    ∀ ef ∈ (build_thread_history env user_id ev limit).2,
      ∃ lvl msg, ef = Effect.log lvl msg := by
  intro ef hef
  unfold build_thread_history at hef
  split at hef
  · simp at hef
  · rename_i rid heq
    have hroot := fetch_root_events_logs env ev.room_id rid
    have hmsgs := get_thread_messages_logs env ev.room_id rid limit
    split at hef
    · simp at hef
    · split at hef
      · rename_i e logs hg
        simp at hef
        rcases hef with hef | hef
        · exact hroot ef hef
        · refine hmsgs ef ?_
          rw [hg]
          exact hef
      · rename_i replies logs hg
        dsimp only at hef
        split at hef
        · simp at hef
          rcases hef with hef | hef
          · exact hroot ef hef
          · refine hmsgs ef ?_
            rw [hg]
            exact hef
        · simp at hef
          rcases hef with hef | hef
          · exact hroot ef hef
          · refine hmsgs ef ?_
            rw [hg]
            exact hef

/-- A chunk containing a malformed element fails to deserialize as a
whole. -/
theorem deserializeChunk_malformed (raws : List RawEvent)
    (h : RawEvent.malformed ∈ raws) :
    deserializeChunk raws = Except.error () := by
  induction raws with
  | nil => cases h
  | cons r rest ih =>
    cases r with
    | malformed => simp [deserializeChunk, deserializeEvent]
    | valid e =>
      have hrest : RawEvent.malformed ∈ rest := by
        rcases List.mem_cons.mp h with h1 | h1
        · cases h1
        · exact h1
      simp [deserializeChunk, deserializeEvent, ih hrest]

/-- Characterization of a successfully converted turn: assistant role
with unchanged body for the bot, user role with the stored body for
everyone else. -/
theorem thread_event_to_turn_eq (user_id : String) (e : Event) (t : Turn)
    (h : thread_event_to_turn user_id e = some t) :
    t = { role := if e.sender = user_id then Role.assistant else Role.user,
          content := stored_body user_id e } := by
  unfold thread_event_to_turn at h
  by_cases hs : e.sender = user_id
  · rw [if_pos hs] at h
    simp at h
    subst h
    simp [stored_body, hs]
  · rw [if_neg hs] at h
    cases hm : is_mentioned e.body user_id with
    | true =>
      simp only [hm] at h
      cases hx : extract_prompt e.body with
      | none =>
        rw [hx] at h
        simp at h
      | some p =>
        rw [hx] at h
        simp at h
        subst h
        simp [stored_body, hs, hm, hx]
    | false =>
      simp only [hm] at h
      simp at h
      subst h
      simp [stored_body, hs, hm]

/-- Characterization of a successful history conversion: one turn per
event, in order, roles by sender and bodies by stored_body. -/
theorem thread_events_to_history_eq_map (user_id : String) (evs : List Event)
    (msgs : List Turn) (h : thread_events_to_history user_id evs = some msgs) :
    msgs = evs.map (fun e =>
      { role := if e.sender = user_id then Role.assistant else Role.user,
        content := stored_body user_id e }) := by
  induction evs generalizing msgs with
  | nil =>
    unfold thread_events_to_history at h
    simp at h
    subst h
    rfl
  | cons e rest ih =>
    unfold thread_events_to_history at h
    split at h
    · rename_i t ts ht hts
      simp at h
      subst h
      have h1 := thread_event_to_turn_eq user_id e t ht
      have h2 := ih ts hts
      simp [List.map_cons, h1, h2]
    · exact Option.noConfusion h

/-- On events from other senders whose bodies carry no mention token,
conversion always succeeds and yields plain user turns in order. -/
theorem thread_events_to_history_plain_users (user_id : String)
    (evs : List Event)
    (h : ∀ e ∈ evs, e.sender ≠ user_id ∧ is_mentioned e.body user_id = false) :
    thread_events_to_history user_id evs =
      some (evs.map fun e => { role := Role.user, content := e.body }) := by
  induction evs with
  | nil => rfl
  | cons e rest ih =>
    have he := h e (List.mem_cons_self e rest)
    have hrest : ∀ x ∈ rest, x.sender ≠ user_id ∧ is_mentioned x.body user_id = false :=
      fun x hx => h x (List.mem_cons_of_mem e hx)
    have hturn : thread_event_to_turn user_id e
        = some { role := Role.user, content := e.body } := by
      unfold thread_event_to_turn
      rw [if_neg he.1]
      simp [he.2]
    unfold thread_events_to_history
    rw [hturn, ih hrest]
    rfl

/-- A list of log entries contains no message send. -/
theorem logs_filter_reply (effs : List Effect)
    (h : ∀ ef ∈ effs, ∃ lvl msg, ef = Effect.log lvl msg) :
    effs.filter isReplyEffect = [] := by
  induction effs with
  | nil => rfl
  | cons e rest ih =>
    obtain ⟨lvl, msg, he⟩ := h e (List.mem_cons_self e rest)
    subst he
    simp only [List.filter_cons]
    have : isReplyEffect (Effect.log lvl msg) = false := rfl
    simp [this, ih (fun x hx => h x (List.mem_cons_of_mem _ hx))]

/-- A list of log entries contains no typing-indicator clear. -/
theorem logs_filter_typing (effs : List Effect)
    (h : ∀ ef ∈ effs, ∃ lvl msg, ef = Effect.log lvl msg) :
    effs.filter isTypingClear = [] := by
  induction effs with
  | nil => rfl
  | cons e rest ih =>
    obtain ⟨lvl, msg, he⟩ := h e (List.mem_cons_self e rest)
    subst he
    simp only [List.filter_cons]
    have : isTypingClear (Effect.log lvl msg) = false := rfl
    simp [this, ih (fun x hx => h x (List.mem_cons_of_mem _ hx))]

/-- Normal form of the handler on an accepted message with a non-empty
prompt whose history build completed: the effects are the debug log,
the build logs, typing on, (on agent failure) the exception log, typing
off, and the threaded reply; nothing is raised. -/
theorem handle_message_agent_branch (env : Env) (user_id : String) (ev : Event)
    (p : String) (h : List Turn)
    (hresp : should_respond user_id env.joinedMembers ev = true)
    (hp : (if is_mentioned ev.body user_id then extract_prompt ev.body
           else some ev.body) = some p)
    (hne : p ≠ "")
    (hb : (build_thread_history env user_id ev 10).1 = Except.ok h) :
    handle_message env user_id ev =
      { effects := Effect.log Level.debug
            ("Message from " ++ ev.sender ++ " in " ++ ev.room_id)
          :: (build_thread_history env user_id ev 10).2
          ++ [Effect.setTyping ev.room_id 30000]
          ++ (match env.agent p h with
              | Except.ok _ => []
              | Except.error _ =>
                [Effect.log Level.errorLevel "Failed to get AI response"])
          ++ [Effect.setTyping ev.room_id 0,
              reply_in_thread ev (agent_reply_text (env.agent p h))],
        raised := false } := by
  rcases hpair : build_thread_history env user_id ev 10 with ⟨res, logs⟩
  rw [hpair] at hb
  simp only at hb
  subst hb
  unfold handle_message
  rw [hresp, hp, hpair]
  cases hag : env.agent p h with
  | ok out => simp [hne, agent_reply_text, hag]
  | error e => simp [hne, agent_reply_text, hag]

/-! ## Claim theorems -/

/-- C1: counterexample — the claim that a ProtocolResponseError raised
while fetching thread relations is caught during history building and
never fatal is false: on an accepted mention with a non-empty prompt
inside a thread, a relations response without the chunk field makes the
handler raise, and the room receives no reply at all. -/
theorem C1_relations_error_unhandled_counterexample :
    (handle_message envNoChunk botId trigger).raised = true ∧
    (handle_message envNoChunk botId trigger).effects.filter isReplyEffect
      = [] := by
  decide

/-- C1 (amended): for every accepted message with a non-empty extracted
prompt whose history building completes without raising, the handler
never raises and the room receives exactly one reply (the agent answer
or the fixed apology); a ProtocolResponseError from the relations fetch
is not caught anywhere, propagates out of the handler and leaves the
room without a reply. -/
theorem C1_exactly_one_reply_when_build_ok (env : Env) (user_id : String)
    (ev : Event) (p : String) (h : List Turn)
    (hresp : should_respond user_id env.joinedMembers ev = true)
    (hp : (if is_mentioned ev.body user_id then extract_prompt ev.body
           else some ev.body) = some p)
    (hne : p ≠ "")
    (hb : (build_thread_history env user_id ev 10).1 = Except.ok h) :
    (handle_message env user_id ev).raised = false ∧
    ((handle_message env user_id ev).effects.filter isReplyEffect).length
      = 1 := by
  rw [handle_message_agent_branch env user_id ev p h hresp hp hne hb]
  refine ⟨rfl, ?_⟩
  have hfl := logs_filter_reply _ (build_thread_history_logs env user_id ev 10)
  cases hag : env.agent p h with
  | ok out =>
    simp [List.filter_append, List.filter_cons, hfl, isReplyEffect,
      reply_in_thread, hag]
  | error e =>
    simp [List.filter_append, List.filter_cons, hfl, isReplyEffect,
      reply_in_thread, hag]

/-- Witness for C1 (amended) at a concrete happy-path scenario. -/
theorem C1_exactly_one_reply_when_build_ok_witness :
    (handle_message baseEnv botId trigger).raised = false ∧
    ((handle_message baseEnv botId trigger).effects.filter isReplyEffect).length
      = 1 :=
  C1_exactly_one_reply_when_build_ok baseEnv botId trigger "hello"
    [{ role := Role.user, content := "thread start" }]
    (by decide) (by decide) (by decide) (by decide)

/-- C5: on every accepted message with a non-empty extracted prompt
that reaches the agent stage, the typing indicator is cleared exactly
once on the success and the failure path alike, the reply is the agent
output on success and the fixed apology string on failure, and an agent
failure never propagates to the caller. -/
theorem C5_typing_cleared_once_and_fallback (env : Env) (user_id : String)
    (ev : Event) (p : String) (h : List Turn)
    (hresp : should_respond user_id env.joinedMembers ev = true)
    (hp : (if is_mentioned ev.body user_id then extract_prompt ev.body
           else some ev.body) = some p)
    (hne : p ≠ "")
    (hb : (build_thread_history env user_id ev 10).1 = Except.ok h) :
    ((handle_message env user_id ev).effects.filter isTypingClear).length
      = 1 ∧
    (handle_message env user_id ev).effects.filter isReplyEffect =
      [reply_in_thread ev (agent_reply_text (env.agent p h))] ∧
    (handle_message env user_id ev).raised = false := by
  rw [handle_message_agent_branch env user_id ev p h hresp hp hne hb]
  have hlogs := build_thread_history_logs env user_id ev 10
  have hfr := logs_filter_reply _ hlogs
  have hft := logs_filter_typing _ hlogs
  cases hag : env.agent p h with
  | ok out =>
    refine ⟨?_, ?_, rfl⟩ <;>
      simp [List.filter_append, List.filter_cons, hfr, hft, isReplyEffect,
        isTypingClear, reply_in_thread, agent_reply_text, hag]
  | error e =>
    refine ⟨?_, ?_, rfl⟩ <;>
      simp [List.filter_append, List.filter_cons, hfr, hft, isReplyEffect,
        isTypingClear, reply_in_thread, agent_reply_text, hag]

/-- Witness for C5 at a concrete scenario whose agent raises: the
typing indicator is cleared once and the fixed apology is the one
reply. -/
theorem C5_typing_cleared_once_and_fallback_witness :
    ((handle_message envAgentFails botId trigger).effects.filter
        isTypingClear).length = 1 ∧
    (handle_message envAgentFails botId trigger).effects.filter isReplyEffect =
      [reply_in_thread trigger (agent_reply_text (envAgentFails.agent "hello"
        [{ role := Role.user, content := "thread start" }]))] ∧
    (handle_message envAgentFails botId trigger).raised = false :=
  C5_typing_cleared_once_and_fallback envAgentFails botId trigger "hello"
    [{ role := Role.user, content := "thread start" }]
    (by decide) (by decide) (by decide) (by decide)

/-- C2: counterexample — the backward-paginated (newest-first) batch is
not reversed before conversion: with the batch [replyNewer, replyOlder]
the returned turns are root, newer, older (batch order), which differs
from the claimed root, older, newer (reversed, oldest-first) order. -/
theorem C2_batch_not_reversed_counterexample :
    (build_thread_history envTwoReplies botId trigger 10).1 =
      Except.ok [{ role := Role.user, content := "thread start" },
        { role := Role.user, content := "newer reply" },
        { role := Role.user, content := "older reply" }] ∧
    ([{ role := Role.user, content := "thread start" },
        { role := Role.user, content := "newer reply" },
        { role := Role.user, content := "older reply" }] : List Turn) ≠
      [{ role := Role.user, content := "thread start" },
        { role := Role.user, content := "older reply" },
        { role := Role.user, content := "newer reply" }] := by
  decide

/-- C2 (amended): the thread root (when kept) is always first, and the
replies follow in the order of the server batch — newest-first for the
default backward pagination — with the triggering event filtered out;
the batch is not reversed. -/
theorem C2_root_first_then_batch_order (env : Env) (user_id : String)
    (ev : Event) (rid : String) (r : Event) (resp : PaginatedMessages)
    (hpar : ev.get_thread_parent = some rid) (hrid : rid ≠ "")
    (hroot : fetch_root_events env ev.room_id rid = ([r], []))
    (hdec : get_event_relations_decode
        (env.relationsContent ev.room_id rid (some 10)) = Except.ok resp)
    (hbatch : ∀ e ∈ resp.events, e.kind = EventKind.message ∧
      e.sender ≠ user_id ∧ is_mentioned e.body user_id = false ∧
      e.event_id ≠ ev.event_id)
    (hr : r.sender ≠ user_id ∧ is_mentioned r.body user_id = false) :
    (build_thread_history env user_id ev 10).1 =
      Except.ok ((r :: resp.events).map fun e =>
        { role := Role.user, content := e.body }) := by
  have hplain := processThreadEvents_plain env.decrypt resp.events
    (fun e he => (hbatch e he).1)
  have hgtm : get_thread_messages env ev.room_id rid 10
      = (Except.ok resp.events, []) := by
    unfold get_thread_messages
    rw [hdec]
    simp [hplain]
  have hfilter : resp.events.filter (fun r2 => r2.event_id != ev.event_id)
      = resp.events := by
    rw [List.filter_eq_self]
    intro a ha
    simpa using (hbatch a ha).2.2.2
  have hconv := thread_events_to_history_plain_users user_id (r :: resp.events)
    (by
      intro e he
      rcases List.mem_cons.mp he with h1 | h1
      · subst h1; exact hr
      · exact ⟨(hbatch e h1).2.1, (hbatch e h1).2.2.1⟩)
  unfold build_thread_history
  split
  · rename_i hnone
    rw [hpar] at hnone
    exact Option.noConfusion hnone
  · rename_i rid2 hsome
    rw [hpar] at hsome
    injection hsome with hrid2
    subst hrid2
    rw [if_neg hrid]
    dsimp only
    split
    · rename_i e logs hg
      rw [hgtm] at hg
      simp at hg
    · rename_i replies logs hg
      rw [hgtm] at hg
      obtain ⟨hrep, hlogs⟩ : Except.ok resp.events = Except.ok replies
          ∧ ([] : List Effect) = logs := by
        exact ⟨congrArg Prod.fst hg, congrArg Prod.snd hg⟩
      injection hrep with hrep
      subst hrep
      subst hlogs
      rw [hroot, hfilter]
      dsimp only
      split
      · rename_i hcv
        rw [List.singleton_append] at hcv
        rw [hconv] at hcv
        exact Option.noConfusion hcv
      · rename_i turns hcv
        rw [List.singleton_append, hconv] at hcv
        injection hcv with hcv
        subst hcv
        rfl

/-- Witness for C2 (amended) at the concrete two-reply batch. -/
theorem C2_root_first_then_batch_order_witness :
    (build_thread_history envTwoReplies botId trigger 10).1 =
      Except.ok ((rootMsg :: [replyNewer, replyOlder]).map
        fun e => { role := Role.user, content := e.body }) :=
  C2_root_first_then_batch_order envTwoReplies botId trigger "$root" rootMsg
    { start := none, end_tok := none, events := [replyNewer, replyOlder] }
    (by decide) (by decide) (by decide) (by decide) (by decide) (by decide)

/-- C3: counterexample — mention detection is not case-insensitive in
the bot identifier: the identifier is compared verbatim against the
lowercased body, so a body that starts with an upper-case-bearing
identifier (even verbatim, hence also case-insensitively) is not
matched and the bot does not respond in a group room. -/
theorem C3_identifier_case_counterexample :
    ciStartsWith "@A:x hi" "@A:x" = true ∧
    should_respond "@A:x" groupMembers evUpperId = false := by
  decide

/-- C3 (amended): a self message is never responded to; in a non-direct
room a message from another sender is responded to if and only if the
body starts case-insensitively with the token !nestor or !n, or the
lowercased body starts with the bot identifier verbatim (which is a
case-insensitive match only when the identifier is itself
lowercase). -/
theorem C3_should_respond_characterization (user_id : String)
    (members : List String) (ev : Event) :
    (ev.sender = user_id → should_respond user_id members ev = false) ∧
    (ev.sender ≠ user_id → is_direct_message members = false →
      (should_respond user_id members ev = true ↔
        (ciStartsWith ev.body "!nestor" = true ∨ ciStartsWith ev.body "!n" = true
          ∨ user_id.toList.isPrefixOf (pyLower ev.body) = true))) := by
  constructor
  · intro hs
    simp [should_respond, hs]
  · intro hs hnd
    have h1 : pyLower "!nestor" = "!nestor".toList := by decide
    have h2 : pyLower "!n" = "!n".toList := by decide
    simp [should_respond, hs, hnd, is_mentioned, ciStartsWith, h1, h2,
      Bool.or_eq_true, or_assoc]

/-- Witness for C3 (amended): the bot ignores its own message. -/
theorem C3_should_respond_characterization_witness :
    should_respond botId groupMembers selfEvent = false :=
  (C3_should_respond_characterization botId groupMembers selfEvent).1
    (by decide)

/-- C4: code bug — the claim says a body with no trailing content after
the mention token yields the empty prompt, but on the body consisting
of the token and a trailing space the code evaluates
body.split(maxsplit=1)[1] on a one-element list and raises IndexError:
the handler dies without sending any reply. -/
theorem C4_extract_prompt_trailing_space_bug :
    extract_prompt "!nestor " = none ∧
    is_mentioned "!nestor " botId = true ∧
    (handle_message baseEnv botId evTrailing).raised = true ∧
    (handle_message baseEnv botId evTrailing).effects.filter isReplyEffect
      = [] := by
  decide

/-- C6: counterexample — the claim that the thread root and the replies
are treated alike is false for the root: a root whose decryption fails
with a missing session is skipped with a WARNING log (the bare except
of _build_thread_history), not the claimed silent debug-level skip;
the failure stays non-fatal and the root stays out of the history. -/
theorem C6_root_session_missing_warns_counterexample :
    (build_thread_history envRootSessionMissing botId trigger 10).2 =
      [Effect.log Level.warning "Failed to fetch thread root $root"] ∧
    (build_thread_history envRootSessionMissing botId trigger 10).1 =
      Except.ok [] := by
  decide

/-- C6 (amended): in the reply loop a session-missing decryption
failure is skipped with a debug log and any other decryption failure
with a warning log, every surviving event comes from a successful
decrypt (so a failed event never reaches the turns) and the loop never
aborts; the thread root however is skipped with a warning log on any
fetch or decryption failure, session-missing included. -/
theorem C6_decryption_failure_handling :
    (∀ (decrypt : Event → Except DecryptError Event) (evs : List Event)
        (e : Event), e ∈ evs →
      decrypt_event_if_needed decrypt e
          = Except.error DecryptError.sessionNotFound →
      Effect.log Level.debug
          ("Skipping event " ++ e.event_id ++ ": missing decryption session")
        ∈ (processThreadEvents decrypt evs).2) ∧
    (∀ (decrypt : Event → Except DecryptError Event) (evs : List Event)
        (e : Event), e ∈ evs →
      decrypt_event_if_needed decrypt e
          = Except.error DecryptError.decryptionFailed →
      Effect.log Level.warning ("Failed to decrypt event " ++ e.event_id)
        ∈ (processThreadEvents decrypt evs).2) ∧
    (∀ (decrypt : Event → Except DecryptError Event) (evs : List Event)
        (d : Event), d ∈ (processThreadEvents decrypt evs).1 →
      ∃ e ∈ evs, decrypt_event_if_needed decrypt e = Except.ok d) ∧
    (∀ (env : Env) (room rid : String) (root : Event) (err : DecryptError),
      env.fetchRoot room rid = Except.ok root →
      decrypt_event_if_needed env.decrypt root = Except.error err →
      fetch_root_events env room rid =
        ([], [Effect.log Level.warning
          ("Failed to fetch thread root " ++ rid)])) := by
  refine ⟨?_, ?_, ?_, ?_⟩
  · intro decrypt evs e he hdec
    have hstep : (processThreadEvent decrypt e).2 =
        [Effect.log Level.debug
          ("Skipping event " ++ e.event_id ++ ": missing decryption session")] := by
      simp [processThreadEvent, hdec]
    refine processThreadEvents_log_mem decrypt evs e he _ ?_
    rw [hstep]
    exact List.mem_singleton.mpr rfl
  · intro decrypt evs e he hdec
    have hstep : (processThreadEvent decrypt e).2 =
        [Effect.log Level.warning ("Failed to decrypt event " ++ e.event_id)] := by
      simp [processThreadEvent, hdec]
    refine processThreadEvents_log_mem decrypt evs e he _ ?_
    rw [hstep]
    exact List.mem_singleton.mpr rfl
  · intro decrypt evs d hd
    obtain ⟨_, e, he, hdec⟩ := processThreadEvents_sources decrypt evs d hd
    exact ⟨e, he, hdec⟩
  · intro env room rid root err hf hdec
    simp [fetch_root_events, hf, hdec]

/-- Witness for C6 (amended): a session-missing reply event produces
the debug skip log. -/
theorem C6_decryption_failure_handling_witness :
    Effect.log Level.debug
        ("Skipping event " ++ encRoot.event_id ++ ": missing decryption session")
      ∈ (processThreadEvents (fun _ => Except.error DecryptError.sessionNotFound)
          [encRoot]).2 :=
  C6_decryption_failure_handling.1
    (fun _ => Except.error DecryptError.sessionNotFound) [encRoot] encRoot
    (List.mem_singleton.mpr rfl) (by decide)

/-- C7: counterexample — a user message that is a bare mention token
keeps its body unchanged: _extract_prompt yields the empty string,
Python falls back with the expression _extract_prompt(body) or body,
and the mention prefix is NOT stripped from the stored turn. -/
theorem C7_bare_mention_not_stripped_counterexample :
    thread_events_to_history botId [bareMention] =
      some [{ role := Role.user, content := "!n" }] ∧
    ({ role := Role.user, content := "!n" } : Turn) ≠
      { role := Role.user, content := "" } := by
  decide

/-- C7 (amended): when the conversion succeeds it yields one turn per
event in order; bot events become assistant turns with unchanged
bodies, all other events user turns whose body is the extracted prompt
(everything after the first whitespace-delimited word) when the body
carries a mention token and the extraction yields non-empty text, and
the unchanged body otherwise (bare mentions included). -/
theorem C7_turn_conversion (user_id : String) (evs : List Event)
    (msgs : List Turn)
    (h : thread_events_to_history user_id evs = some msgs) :
    msgs = evs.map (fun e =>
      { role := if e.sender = user_id then Role.assistant else Role.user,
        content := stored_body user_id e }) :=
  thread_events_to_history_eq_map user_id evs msgs h

/-- Witness for C7 (amended): a bot reply and a mention prompt
convert to an assistant turn and a stripped user turn. -/
theorem C7_turn_conversion_witness :
    [({ role := Role.assistant, content := "earlier answer" } : Turn),
     { role := Role.user, content := "hello" }] =
      [botReply, trigger].map (fun e =>
        { role := if e.sender = botId then Role.assistant else Role.user,
          content := stored_body botId e }) :=
  C7_turn_conversion botId [botReply, trigger]
    [{ role := Role.assistant, content := "earlier answer" },
     { role := Role.user, content := "hello" }] (by decide)

/-- C8: the relations decode fails with a MatrixResponseError both when
the chunk field is absent and when any element of the chunk is
malformed — the whole call fails with no partial decoding — while an
empty but well-formed chunk succeeds and returns an empty event
sequence together with the pagination tokens. -/
theorem C8_decode_failfast :
    (∀ p n : Option String,
      get_event_relations_decode
          { prev_batch := p, next_batch := n, chunk := none }
        = Except.error MatrixError.chunkMissing) ∧
    (∀ (p n : Option String) (raws : List RawEvent),
      RawEvent.malformed ∈ raws →
      get_event_relations_decode
          { prev_batch := p, next_batch := n, chunk := some raws }
        = Except.error MatrixError.invalidEvents) ∧
    (∀ p n : Option String,
      get_event_relations_decode
          { prev_batch := p, next_batch := n, chunk := some [] }
        = Except.ok { start := p, end_tok := n, events := [] }) := by
  refine ⟨fun p n => rfl, ?_, fun p n => rfl⟩
  intro p n raws hmem
  simp [get_event_relations_decode, deserializeChunk_malformed raws hmem]

/-- Witness for C8: a batch with one valid and one malformed element
fails as a whole. -/
theorem C8_decode_failfast_witness :
    get_event_relations_decode
        { prev_batch := none, next_batch := none,
          chunk := some [RawEvent.valid rootMsg, RawEvent.malformed] }
      = Except.error MatrixError.invalidEvents :=
  C8_decode_failfast.2.1 none none
    [RawEvent.valid rootMsg, RawEvent.malformed] (by decide)

/-- C9: counterexample — the claim fails at limit 0: Python evaluates
str(limit) if limit else None, 0 is falsy, so a caller-provided limit
of 0 is silently dropped from the query instead of passed verbatim. -/
theorem C9_limit_zero_dropped_counterexample :
    relationsQueryParams "b" none none (some 0) =
      [("dir", some "b"), ("from", none), ("to", none), ("limit", none)] ∧
    (none : Option String) ≠ some "0" := by
  decide

/-- C9 (amended): every nonzero limit the caller provides is passed
through verbatim as its decimal string; a limit of 0 is dropped from
the query exactly like an absent one. -/
theorem C9_nonzero_limit_passed (dir : String) (f t : Option String)
    (l : Int) (h : l ≠ 0) :
    relationsQueryParams dir f t (some l) =
      [("dir", some dir), ("from", f), ("to", t),
       ("limit", some (toString l))] := by
  simp [relationsQueryParams, h]

/-- Witness for C9 (amended) at limit 10. -/
theorem C9_nonzero_limit_passed_witness :
    relationsQueryParams "b" none none (some 10) =
      [("dir", some "b"), ("from", none), ("to", none),
       ("limit", some (toString (10 : Int)))] :=
  C9_nonzero_limit_passed "b" none none 10 (by decide)

/-- C10: every turn of a successful history build originates from a
message event: the root step only keeps message events obtained from a
successful decrypt of the fetched root, the reply loop only keeps
message events obtained from successful decrypts of batch events, and
the returned turns are exactly the one-per-event conversion of a list
of message events — membership events, reactions and undecryptable
events never contribute a turn. -/
theorem C10_turns_from_message_events :
    (∀ (env : Env) (room rid : String),
      ∀ d ∈ (fetch_root_events env room rid).1,
        isMessageEvent d = true ∧
          ∃ root, env.fetchRoot room rid = Except.ok root ∧
            decrypt_event_if_needed env.decrypt root = Except.ok d) ∧
    (∀ (decrypt : Event → Except DecryptError Event) (evs : List Event),
      ∀ d ∈ (processThreadEvents decrypt evs).1,
        isMessageEvent d = true ∧
          ∃ e ∈ evs, decrypt_event_if_needed decrypt e = Except.ok d) ∧
    (∀ (env : Env) (user_id : String) (ev : Event) (limit : Int)
        (turns : List Turn),
      (build_thread_history env user_id ev limit).1 = Except.ok turns →
      ∃ evs : List Event, (∀ d ∈ evs, isMessageEvent d = true) ∧
        thread_events_to_history user_id evs = some turns) := by
  refine ⟨fetch_root_events_sources, processThreadEvents_sources, ?_⟩
  intro env user_id ev limit turns h
  unfold build_thread_history at h
  split at h
  · simp at h
    exact ⟨[], by simp, by rw [h]; rfl⟩
  · rename_i rid heq
    split at h
    · simp at h
      exact ⟨[], by simp, by rw [h]; rfl⟩
    · dsimp only at h
      split at h
      · simp at h
      · rename_i replies logs hg
        split at h
        · simp at h
        · rename_i turns2 hconv
          simp at h
          subst h
          refine ⟨(fetch_root_events env ev.room_id rid).1
            ++ replies.filter (fun r => r.event_id != ev.event_id), ?_, hconv⟩
          intro d hd
          rcases List.mem_append.mp hd with hd | hd
          · exact (fetch_root_events_sources env ev.room_id rid d hd).1
          · have hrep : (get_thread_messages env ev.room_id rid limit).1
                = Except.ok replies := by rw [hg]
            exact (get_thread_messages_sources env ev.room_id rid limit
              replies hrep d (List.mem_of_mem_filter hd)).1

/-- Witness for C10 at the concrete happy-path build. -/
theorem C10_turns_from_message_events_witness :
    ∃ evs : List Event, (∀ d ∈ evs, isMessageEvent d = true) ∧
      thread_events_to_history botId evs =
        some [{ role := Role.user, content := "thread start" }] :=
  C10_turns_from_message_events.2.2 baseEnv botId trigger 10
    [{ role := Role.user, content := "thread start" }] (by decide)

end NestorMatrix
